import Mathlib

/-!
Verification of the voyeur event bus (`voyeur.go`) against its
natural-language specification.

The model is a shallow embedding of the package:

* `Event` covers the concrete Go event types relevant here: `simpleEvent`
  (the package's own struct, of which the `End` sentinel is the instance
  with type tag "End"), `stringEvent` from the examples, and a `custom`
  constructor standing for any other caller-defined concrete type
  implementing the `Event` interface.  Go interface equality (`e == End`)
  compares dynamic type and value, which is exactly equality of this
  inductive.
* A Bus core (`observable`/`emitter` in the source) is `Core O`: the
  registry — a list of (registration identity, observer) pairs, where the
  identity models the `*Observer` pointer that keys the Go map — plus the
  one-shot `done` channel, modelled as a `Bool` that is `true` once closed.
  Go's `close` of an already-closed channel is a runtime panic, modelled by
  `Except GoPanic`.
* The Go core is generic over the `Observer` interface; the model is
  correspondingly parametric in the observer type `O` together with its
  `OnEvent` method `onE`.  Dispatch threads updated observer values
  explicitly where Go mutates behind pointers.
* `LogEntry` records one `OnEvent` invocation on a probe ("collector")
  observer: which observer, with which context (an opaque token), and
  which event.  Delivery in the model is synchronous, mirroring the fact
  that Go dispatch runs under the core's lock within the `Emit` call.
-/

/-- The concrete Go event types: `simpleEvent{typ}`, `stringEvent`, and an
arbitrary further implementation of the `Event` interface (dynamic type
identified by `typ`, payload by `payload`). -/
inductive Event where
  | simple (typ : String)
  | str (s : String)
  | custom (typ : String) (payload : String)
deriving DecidableEq, Repr

/-- `EventType()` of each concrete event type: `simpleEvent` returns its
tag, `stringEvent` always returns "string", a custom type returns its own
tag. -/
def EventType : Event → String
  | Event.simple t => t
  | Event.str _ => "string"
  | Event.custom t _ => t

/-- The `End` sentinel: `var End = simpleEvent{"End"}`. -/
def EndEvent : Event := Event.simple "End"

/-- Go runtime panics the embedded code can raise. -/
inductive GoPanic where
  | closeOfClosedChannel
  | typeAssertion
  | reflectNonFunc
  | indexOutOfRange
deriving DecidableEq, Repr

/-- One observer invocation: observer identity, the context token passed,
and the delivered event. -/
structure LogEntry where
  obs : Nat
  ctx : Nat
  ev : Event
deriving DecidableEq, Repr

/-- The shared state behind an `Emitter`/`Observable` pair: the registry
(keyed by registration identity, standing for the `*Observer` map key) and
the `done` channel (`true` = closed). -/
structure Core (O : Type) where
  observers : List (Nat × O)
  done : Bool
deriving DecidableEq, Repr

/-- `Pair()`: a fresh core with an empty registry and an open done channel. -/
def Pair (O : Type) : Core O := ⟨[], false⟩

/-- The registry insertion performed under the lock by `Register` (the
asynchronous cancellation watcher is modelled separately, see `RegStep`). -/
def Register {O : Type} (c : Core O) (i : Nat) (oer : O) : Core O :=
  ⟨c.observers ++ [(i, oer)], c.done⟩

/-- The dispatch loop of `Emit`: `for o := range em.observers {
(*o).OnEvent(ctx, e) }`, with `onE` the `OnEvent` method of the observer
type and updated observer values threaded explicitly. -/
def dispatch {O : Type} (onE : O → Nat → Event → Except GoPanic (O × List LogEntry)) :
    List (Nat × O) → Nat → Event → Except GoPanic (List (Nat × O) × List LogEntry)
  | [], _, _ => Except.ok ([], [])
  | (i, o) :: rest, ctx, e =>
    match onE o ctx e with
    | Except.error p => Except.error p
    | Except.ok (o2, log1) =>
      match dispatch onE rest ctx e with
      | Except.error p => Except.error p
      | Except.ok (rest2, log2) => Except.ok ((i, o2) :: rest2, log1 ++ log2)

/-- `(em *emitter) Emit(ctx, e)`: dispatch to every registered observer,
then `if e == End { close(em.done) }` — the close is unconditional in the
source, so a second `End` hits Go's close-of-closed-channel panic. -/
def Emit {O : Type} (onE : O → Nat → Event → Except GoPanic (O × List LogEntry))
    (c : Core O) (ctx : Nat) (e : Event) : Except GoPanic (Core O × List LogEntry) :=
  match dispatch onE c.observers ctx e with
  | Except.error p => Except.error p
  | Except.ok (obs2, log) =>
    if e = EndEvent then
      if c.done then Except.error GoPanic.closeOfClosedChannel
      else Except.ok (⟨obs2, true⟩, log)
    else Except.ok (⟨obs2, c.done⟩, log)

/-- `(em *emitter) End(ctx) { em.Emit(ctx, End) }`. -/
def EndCall {O : Type} (onE : O → Nat → Event → Except GoPanic (O × List LogEntry))
    (c : Core O) (ctx : Nat) : Except GoPanic (Core O × List LogEntry) :=
  Emit onE c ctx EndEvent

/-- A sequence of `Emit` calls by one publisher, in program order. -/
def EmitSeq {O : Type} (onE : O → Nat → Event → Except GoPanic (O × List LogEntry)) :
    Core O → Nat → List Event → Except GoPanic (Core O × List LogEntry)
  | c, _, [] => Except.ok (c, [])
  | c, ctx, e :: es =>
    match Emit onE c ctx e with
    | Except.error p => Except.error p
    | Except.ok (c2, log1) =>
      match EmitSeq onE c2 ctx es with
      | Except.error p => Except.error p
      | Except.ok (c3, log2) => Except.ok (c3, log1 ++ log2)

/-- A probe observer (like the examples' `printObserver`): its `OnEvent`
only records the invocation.  The observer value is its identity. -/
def onCollector (i : Nat) (ctx : Nat) (e : Event) :
    Except GoPanic (Nat × List LogEntry) :=
  Except.ok (i, [⟨i, ctx, e⟩])

/-- The transform closures `func(ctx, em, e)` appearing in the source:
the two canonical combinators installed by `init()` (`Noop` ignores the
event, `Fwd` re-emits it unchanged) and the accumulating concatenation
closure of `ExampleFilter` (`strEv += e.(stringEvent); em.Emit(ctx,
strEv)`), whose captured variable `strEv` is the filter's mutable
accumulator. -/
inductive Transform where
  | noop
  | fwd
  | concat
deriving DecidableEq, Repr

/-- One invocation of a transform closure: given the accumulator and the
inbound event it yields the new accumulator and the events it passes to
`em.Emit`, in order.  `concat` performs the Go type assertion
`e.(stringEvent)`, which panics on any other concrete event type. -/
def runTransform : Transform → String → Event → Except GoPanic (String × List Event)
  | Transform.noop, acc, _ => Except.ok (acc, [])
  | Transform.fwd, acc, e => Except.ok (acc, [e])
  | Transform.concat, acc, e =>
    match e with
    | Event.str s => Except.ok (acc ++ s, [Event.str (acc ++ s)])
    | _ => Except.error GoPanic.typeAssertion

/-- `mapFilter`: the transform, its captured accumulator, and the internal
Bus core created by `Pair()` inside `Map`, on whose observable facet
downstream observers (modelled as collectors) register. -/
structure MapFilter where
  t : Transform
  acc : String
  core : Core Nat
deriving DecidableEq, Repr

/-- `Map(f)`: a fresh internal core plus the transform. -/
def Map (t : Transform) : MapFilter := ⟨t, "", Pair Nat⟩

/-- `(m *mapFilter) Register` delegates to the internal observable. -/
def MapRegister (m : MapFilter) (i : Nat) (oer : Nat) : MapFilter :=
  ⟨m.t, m.acc, Register m.core i oer⟩

/-- `(m *mapFilter) OnEvent(ctx, e) { m.f(ctx, m.em, e) }`: run the
transform, then emit each event it produced on the internal emitter with
the same context; the downstream log is what those emissions deliver. -/
def onMapFilter (m : MapFilter) (ctx : Nat) (e : Event) :
    Except GoPanic (MapFilter × List LogEntry) :=
  match runTransform m.t m.acc e with
  | Except.error p => Except.error p
  | Except.ok (acc2, outs) =>
    match EmitSeq onCollector m.core ctx outs with
    | Except.error p => Except.error p
    | Except.ok (core2, log) => Except.ok (⟨m.t, acc2, core2⟩, log)

/-- An arbitrary upstream Observable delivering a sequence of events to a
registered filter is a sequence of `OnEvent` calls on it; `feedSeq`
performs them in order and concatenates the downstream logs. -/
def feedSeq : MapFilter → Nat → List Event → Except GoPanic (MapFilter × List LogEntry)
  | m, _, [] => Except.ok (m, [])
  | m, ctx, e :: es =>
    match onMapFilter m ctx e with
    | Except.error p => Except.error p
    | Except.ok (m2, log1) =>
      match feedSeq m2 ctx es with
      | Except.error p => Except.error p
      | Except.ok (m3, log2) => Except.ok (m3, log1 ++ log2)

/-!
## Registration lifecycle (`Register` and its cancellation watcher)

`Register` inserts the observer under the lock, then spawns a goroutine
that blocks on `select { case <-o.done: case <-ctx.Done(): lock; delete }`.
The interleaving of publishers, cancellations and watcher goroutines is
modelled as a labelled transition system over `RegSystem`: the registry
(the keys of the observers map), the set of still-blocked watcher
goroutines, the set of cancelled contexts (one context per registration,
identified by the registration), and the done channel.
-/

/-- Shared state of one Bus core as seen by the registration protocol. -/
structure RegSystem where
  registry : List Nat
  watchers : List Nat
  cancelled : List Nat
  done : Bool
  nextId : Nat
deriving DecidableEq, Repr

/-- The actions: a `Register` call (fresh identity), a `cancel()` of a
registration's context, an `Emit` (only the `End` sentinel touches this
state), and a watcher goroutine waking on one of its two select branches. -/
inductive RegAction where
  | register
  | cancel (i : Nat)
  | emitEvent (e : Event)
  | watcherDone (i : Nat)
  | watcherCancel (i : Nat)
deriving DecidableEq, Repr

/-- One transition.  `watcherDone`: the done branch fires (needs the done
channel closed) and the goroutine exits without touching the registry.
`watcherCancel`: the `ctx.Done()` branch fires (needs that context
cancelled) and deletes exactly its own registration. -/
inductive RegStep : RegSystem → RegAction → RegSystem → Prop where
  | register (s : RegSystem) :
      RegStep s RegAction.register
        ⟨s.registry ++ [s.nextId], s.watchers ++ [s.nextId], s.cancelled, s.done, s.nextId + 1⟩
  | cancel (s : RegSystem) (i : Nat) :
      RegStep s (RegAction.cancel i)
        ⟨s.registry, s.watchers, i :: s.cancelled, s.done, s.nextId⟩
  | emitNonEnd (s : RegSystem) (e : Event) (h : e ≠ EndEvent) :
      RegStep s (RegAction.emitEvent e) s
  | emitEnd (s : RegSystem) (h : s.done = false) :
      RegStep s (RegAction.emitEvent EndEvent)
        ⟨s.registry, s.watchers, s.cancelled, true, s.nextId⟩
  | watcherDone (s : RegSystem) (i : Nat) (h1 : i ∈ s.watchers) (h2 : s.done = true) :
      RegStep s (RegAction.watcherDone i)
        ⟨s.registry, s.watchers.erase i, s.cancelled, s.done, s.nextId⟩
  | watcherCancel (s : RegSystem) (i : Nat) (h1 : i ∈ s.watchers) (h2 : i ∈ s.cancelled) :
      RegStep s (RegAction.watcherCancel i)
        ⟨s.registry.erase i, s.watchers.erase i, s.cancelled, s.done, s.nextId⟩

/-- Reachability along any interleaving. -/
inductive Reach : RegSystem → RegSystem → Prop where
  | refl (s : RegSystem) : Reach s s
  | step (s1 s2 s3 : RegSystem) (a : RegAction) (h : RegStep s1 a s2) (h2 : Reach s2 s3) :
      Reach s1 s3

/-- A core fresh out of `Pair()`. -/
def initRegSystem : RegSystem := ⟨[], [], [], false, 0⟩

/-- The state after: one `Register` (identity 0), then `End` emitted, then
the watcher wakes on the done branch and exits, then the registration's
context is cancelled. -/
def stuckState : RegSystem := ⟨[0], [], [0], true, 1⟩

/-- Registration `i` stays in the registry in every future of `s`. -/
def neverRemoved (s : RegSystem) (i : Nat) : Prop :=
  ∀ s2, Reach s s2 → i ∈ s2.registry

/-!
## The reflective FilterBuilder (`NewFilterBuilder` / `Valid` / `Build`)

`Build` inspects the wrapped value with the reflect package.  Values are
modelled by their reflective shape: a function with its parameter and
result type lists, or a non-function value.  Arguments are modelled by
their dynamic types, which is all `Build`'s checking reads.
`reflect.Type.NumIn` on a non-function kind panics; `out[0]` panics when
the function has no results; the final `.(Filter)` assertion panics when
the single result is not a `Filter`.
-/

/-- Go types as compared by the reflective checks. -/
inductive GoType where
  | filterT
  | intT
  | stringT
  | otherT (n : Nat)
deriving DecidableEq, Repr

/-- The reflective shape of the value wrapped by a `FilterBuilder`. -/
inductive GoValue where
  | funcV (params : List GoType) (results : List GoType)
  | nonFunc (t : GoType)
deriving DecidableEq, Repr

/-- `FilterBuilder` wraps an arbitrary value `v`. -/
structure FilterBuilder where
  v : GoValue
deriving DecidableEq, Repr

/-- `NewFilterBuilder(f)`. -/
def NewFilterBuilder (f : GoValue) : FilterBuilder := ⟨f⟩

/-- `(fb *FilterBuilder) Valid()`: `v` is a function with exactly one
result, of the `Filter` interface type. -/
def Valid (fb : FilterBuilder) : Bool :=
  match fb.v with
  | GoValue.nonFunc _ => false
  | GoValue.funcV _ [r] => r = GoType.filterT
  | GoValue.funcV _ _ => false

/-- What `Build` returns when it does not panic: the `paramMismatchError`,
or the constructed `Filter`. -/
inductive BuildResult where
  | mismatchErr
  | builtFilter
deriving DecidableEq, Repr

/-- `(fb *FilterBuilder) Build(vs...)`: `reflect.TypeOf(fb.v).NumIn()`
(panics on a non-function), the argument-count check, the per-argument
dynamic-type check (each mismatch returns the error), then
`reflect.ValueOf(fb.v).Call(rvs)`, `out[0]` and the `.(Filter)`
assertion. -/
def Build (fb : FilterBuilder) (args : List GoType) : Except GoPanic BuildResult :=
  match fb.v with
  | GoValue.nonFunc _ => Except.error GoPanic.reflectNonFunc
  | GoValue.funcV ps rs =>
    if args.length ≠ ps.length then Except.ok BuildResult.mismatchErr
    else if (args.zip ps).any (fun p => p.1 ≠ p.2) then Except.ok BuildResult.mismatchErr
    else
      match rs with
      | [] => Except.error GoPanic.indexOutOfRange
      | r :: _ =>
        if r = GoType.filterT then Except.ok BuildResult.builtFilter
        else Except.error GoPanic.typeAssertion

/-! ## Helper lemmas -/

/-- The dispatch loop over a registry of collectors delivers one invocation
per registration, in iteration order, and leaves the registry unchanged. -/
lemma dispatch_collector (l : List (Nat × Nat)) (ctx : Nat) (e : Event) :
    dispatch onCollector l ctx e
      = Except.ok (l, l.map (fun p => ⟨p.2, ctx, e⟩)) := by
  induction l with
  | nil => rfl
  | cons p rest ih =>
    obtain ⟨i, o⟩ := p
    simp [dispatch, onCollector, ih]

/-- `Emit` on a collector registry with the done channel open: no panic,
one invocation per registration with the emitted event and context, the
done channel closed exactly when the event is the `End` sentinel. -/
lemma emit_collector (l : List (Nat × Nat)) (ctx : Nat) (e : Event) :
    Emit onCollector ⟨l, false⟩ ctx e
      = Except.ok (⟨l, decide (e = EndEvent)⟩, l.map (fun p => ⟨p.2, ctx, e⟩)) := by
  unfold Emit
  rw [show (⟨l, false⟩ : Core Nat).observers = l from rfl, dispatch_collector]
  by_cases h : e = EndEvent <;> simp [h]

/-- A sequence of `Emit` calls on a core with an empty registry: as long
as `End` is emitted at most once in total (the open/closed state of the
done channel included), nothing panics, nobody is invoked, and the done
channel records whether `End` occurred. -/
lemma emitseq_empty_registry (es : List Event) (ctx : Nat) (dc : Bool)
    (h : es.count EndEvent + (if dc then 1 else 0) ≤ 1) :
    EmitSeq onCollector (⟨[], dc⟩ : Core Nat) ctx es
      = Except.ok (⟨[], dc || es.contains EndEvent⟩, []) := by
  induction es generalizing dc with
  | nil => simp [EmitSeq]
  | cons e rest ih =>
    by_cases he : e = EndEvent
    · subst he
      have hc : rest.count EndEvent + 1 + (if dc then 1 else 0) ≤ 1 := by
        simpa [List.count_cons] using h
      have hdc : dc = false := by
        cases dc
        · rfl
        · exfalso
          simp at hc
      subst hdc
      have hcount : rest.count EndEvent + (if true then 1 else 0) ≤ 1 := by
        simpa using hc
      simp [EmitSeq, Emit, dispatch, ih true hcount, List.contains_cons]
    · have hbeq : (EndEvent == e) = false := by
        simpa using fun hh => he hh.symm
      have hcount : rest.count EndEvent + (if dc then 1 else 0) ≤ 1 := by
        simpa [List.count_cons, hbeq, he] using h
      have hdec : decide (EndEvent = e) = false := decide_eq_false (fun hh => he hh.symm)
      simp [EmitSeq, Emit, dispatch, he, ih dc hcount, List.contains_cons, hbeq, hdec]

/-- Dispatch leaves the registry keys (the `*Observer` identities of the
Go map) unchanged, whatever the observers do. -/
lemma dispatch_preserves_ids {O : Type}
    (onE : O → Nat → Event → Except GoPanic (O × List LogEntry))
    (l : List (Nat × O)) (ctx : Nat) (e : Event)
    (out : List (Nat × O) × List LogEntry)
    (h : dispatch onE l ctx e = Except.ok out) :
    out.1.map Prod.fst = l.map Prod.fst := by
  induction l generalizing out with
  | nil =>
    simp [dispatch] at h
    simp [← h]
  | cons p rest ih =>
    obtain ⟨i, o⟩ := p
    unfold dispatch at h
    cases ho : onE o ctx e with
    | error q => rw [ho] at h; exact absurd h (by simp)
    | ok r =>
      obtain ⟨o2, log1⟩ := r
      rw [ho] at h
      cases hd : dispatch onE rest ctx e with
      | error q => rw [hd] at h; exact absurd h (by simp)
      | ok r2 =>
        obtain ⟨rest2, log2⟩ := r2
        rw [hd] at h
        simp only [Except.ok.injEq] at h
        have hids := ih (rest2, log2) hd
        simp [← h, hids]

/-- `Emit` once the dispatch loop has finished without a panic. -/
lemma Emit_after_dispatch {O : Type}
    (onE : O → Nat → Event → Except GoPanic (O × List LogEntry))
    (c : Core O) (ctx : Nat) (e : Event) (obs2 : List (Nat × O)) (log : List LogEntry)
    (hd : dispatch onE c.observers ctx e = Except.ok (obs2, log)) :
    Emit onE c ctx e
      = if e = EndEvent then
          (if c.done then Except.error GoPanic.closeOfClosedChannel
           else Except.ok (⟨obs2, true⟩, log))
        else Except.ok (⟨obs2, c.done⟩, log) := by
  unfold Emit
  rw [hd]

/-- `Emit` when the dispatch loop panics. -/
lemma Emit_after_dispatch_error {O : Type}
    (onE : O → Nat → Event → Except GoPanic (O × List LogEntry))
    (c : Core O) (ctx : Nat) (e : Event) (p : GoPanic)
    (hd : dispatch onE c.observers ctx e = Except.error p) :
    Emit onE c ctx e = Except.error p := by
  unfold Emit
  rw [hd]

/-! ## The claims -/

/-- C1: the spec requires the second `End` emission to detect the
already-closed done channel and skip re-closing.  The source closes
unconditionally (`if e == End { close(em.done) }` with no guard), so the
second `End()` call on a fresh core panics with Go's close-of-closed-
channel fault instead of being idempotent. -/
theorem end_twice_panics :
    Except.bind (EndCall onCollector (Pair Nat) 0) (fun r => EndCall onCollector r.1 0)
      = Except.error GoPanic.closeOfClosedChannel := rfl

/-- C2: every observer registered before an `Emit` is invoked exactly once
by that `Emit`, with exactly the emitted event and the same context; the
registry is left as it was and delivery completes within the call
(the model's dispatch is the synchronous under-lock loop of the source). -/
theorem emit_invokes_each_observer_once (l : List (Nat × Nat)) (ctx : Nat) (e : Event) :
    Emit onCollector ⟨l, false⟩ ctx e
      = Except.ok (⟨l, decide (e = EndEvent)⟩, l.map (fun p => ⟨p.2, ctx, e⟩)) :=
  emit_collector l ctx e

/-- C3 (counterexample): on a core with zero registered observers, the
two-element emission sequence `[End, End]` panics (close of closed
channel), so it is not true that arbitrary sequences containing `End` any
number of times run without failure. -/
theorem emitseq_double_end_panics :
    EmitSeq onCollector (Pair Nat) 0 [EndEvent, EndEvent]
      = Except.error GoPanic.closeOfClosedChannel := rfl

/-- C3 (amended): for every sequence of `Emit` calls on a core with zero
registered observers in which the `End` sentinel occurs at most once, no
failure occurs and no observer is invoked. -/
theorem emitseq_no_observers_silent (es : List Event) (ctx : Nat)
    (h : es.count EndEvent ≤ 1) :
    EmitSeq onCollector (Pair Nat) ctx es
      = Except.ok (⟨[], es.contains EndEvent⟩, []) := by
  have hh : es.count EndEvent + (if false then 1 else 0) ≤ 1 := by simpa using h
  simpa [Pair] using emitseq_empty_registry es ctx false hh

/-- C3 witness: a concrete silent run with one `End`. -/
theorem emitseq_no_observers_silent_witness :
    EmitSeq onCollector (Pair Nat) 0 [Event.str "x", EndEvent]
      = Except.ok (⟨[], true⟩, []) := by
  have h := emitseq_no_observers_silent [Event.str "x", EndEvent] 0 (by decide)
  simpa using h

/-- C8: `End(ctx)` is definitionally `Emit(ctx, End)`: same observer
invocations, same resulting core state, for every core and context. -/
theorem end_call_is_emit_end (O : Type)
    (onE : O → Nat → Event → Except GoPanic (O × List LogEntry))
    (c : Core O) (ctx : Nat) :
    EndCall onE c ctx = Emit onE c ctx EndEvent := rfl

/-- C9: an `Emit` on a core with the done channel open closes it exactly
when the emitted event is the `End` sentinel itself (Go interface
equality); an event of a different concrete type whose `EventType()` is
also "End" does not compare equal to the sentinel and leaves the done
channel open. -/
theorem done_closed_iff_end_sentinel :
    (∀ (O : Type) (onE : O → Nat → Event → Except GoPanic (O × List LogEntry))
        (c : Core O) (ctx : Nat) (e : Event) (out : Core O × List LogEntry),
        c.done = false → Emit onE c ctx e = Except.ok out →
        (out.1.done = true ↔ e = EndEvent))
    ∧ EventType (Event.custom "End" "") = "End"
    ∧ Event.custom "End" "" ≠ EndEvent
    ∧ Emit onCollector (Pair Nat) 0 (Event.custom "End" "")
        = Except.ok (Pair Nat, []) := by
  refine ⟨?_, rfl, by decide, rfl⟩
  intro O onE c ctx e out hdone h
  cases hd : dispatch onE c.observers ctx e with
  | error q =>
    rw [Emit_after_dispatch_error onE c ctx e q hd] at h
    exact absurd h (by simp)
  | ok r =>
    obtain ⟨obs2, log⟩ := r
    rw [Emit_after_dispatch onE c ctx e obs2 log hd, hdone] at h
    by_cases he : e = EndEvent
    · rw [if_pos he] at h
      simp only [Bool.false_eq_true, if_false, Except.ok.injEq] at h
      simp [← h, he]
    · rw [if_neg he] at h
      simp only [Except.ok.injEq] at h
      simp [← h, he]

/-- C10: `Emit` never adds or removes a registration: the registry keys
after any successful `Emit` are exactly those before it, for every
observer type and every event (`End` included); and observers still
registered after `End` was emitted continue to receive subsequently
emitted non-`End` events. -/
theorem emit_preserves_registry :
    (∀ (O : Type) (onE : O → Nat → Event → Except GoPanic (O × List LogEntry))
        (c : Core O) (ctx : Nat) (e : Event) (out : Core O × List LogEntry),
        Emit onE c ctx e = Except.ok out →
        out.1.observers.map Prod.fst = c.observers.map Prod.fst)
    ∧ (∀ (l : List (Nat × Nat)) (ctx : Nat) (e : Event), e ≠ EndEvent →
        EmitSeq onCollector ⟨l, false⟩ ctx [EndEvent, e]
          = Except.ok (⟨l, true⟩,
              l.map (fun p => ⟨p.2, ctx, EndEvent⟩) ++ l.map (fun p => ⟨p.2, ctx, e⟩))) := by
  constructor
  · intro O onE c ctx e out h
    cases hd : dispatch onE c.observers ctx e with
    | error q =>
      rw [Emit_after_dispatch_error onE c ctx e q hd] at h
      exact absurd h (by simp)
    | ok r =>
      obtain ⟨obs2, log⟩ := r
      rw [Emit_after_dispatch onE c ctx e obs2 log hd] at h
      have hids := dispatch_preserves_ids onE c.observers ctx e (obs2, log) hd
      by_cases he : e = EndEvent
      · rw [if_pos he] at h
        cases hdone : c.done
        · rw [hdone] at h
          simp only [Bool.false_eq_true, if_false, Except.ok.injEq] at h
          simp [← h, hids]
        · rw [hdone] at h
          exact absurd h (by simp)
      · rw [if_neg he] at h
        simp only [Except.ok.injEq] at h
        simp [← h, hids]
  · intro l ctx e he
    have h1 := emit_collector l ctx EndEvent
    have h2 : Emit onCollector ⟨l, true⟩ ctx e
        = Except.ok (⟨l, true⟩, l.map (fun p => ⟨p.2, ctx, e⟩)) := by
      unfold Emit
      rw [show (⟨l, true⟩ : Core Nat).observers = l from rfl, dispatch_collector]
      simp [he]
    simp [EmitSeq, h1, h2]

/-- A one-element emission sequence is a single `Emit` call. -/
lemma EmitSeq_singleton {O : Type}
    (onE : O → Nat → Event → Except GoPanic (O × List LogEntry))
    (c : Core O) (ctx : Nat) (e : Event) :
    EmitSeq onE c ctx [e] = Emit onE c ctx e := by
  cases h : Emit onE c ctx e with
  | error p => simp [EmitSeq, h]
  | ok r =>
    obtain ⟨c2, log⟩ := r
    simp [EmitSeq, h]

/-- One `OnEvent` call on the `Fwd` filter with collectors registered
downstream: the event is re-emitted unchanged on the internal core, so
each downstream observer receives it; an `End` also closes (or, if already
closed, panics on) the internal done channel. -/
lemma onMapFilter_fwd (l : List (Nat × Nat)) (dc : Bool) (ctx : Nat) (e : Event) :
    onMapFilter ⟨Transform.fwd, "", ⟨l, dc⟩⟩ ctx e
      = if e = EndEvent then
          (if dc then Except.error GoPanic.closeOfClosedChannel
           else Except.ok (⟨Transform.fwd, "", ⟨l, true⟩⟩, l.map (fun p => ⟨p.2, ctx, e⟩)))
        else Except.ok (⟨Transform.fwd, "", ⟨l, dc⟩⟩, l.map (fun p => ⟨p.2, ctx, e⟩)) := by
  by_cases he : e = EndEvent
  · subst he
    have hE := Emit_after_dispatch onCollector ⟨l, dc⟩ ctx EndEvent l
      (l.map (fun p => ⟨p.2, ctx, EndEvent⟩)) (dispatch_collector l ctx EndEvent)
    cases dc <;> simp [onMapFilter, runTransform, EmitSeq_singleton, hE]
  · have hE := Emit_after_dispatch onCollector ⟨l, dc⟩ ctx e l
      (l.map (fun p => ⟨p.2, ctx, e⟩)) (dispatch_collector l ctx e)
    cases dc <;> simp [onMapFilter, runTransform, EmitSeq_singleton, hE, he]

/-- The `Noop` filter swallows every event: no downstream delivery, no
state change, no failure, whatever the inbound sequence. -/
lemma feedseq_noop (acc : String) (core : Core Nat) (ctx : Nat) (es : List Event) :
    feedSeq ⟨Transform.noop, acc, core⟩ ctx es
      = Except.ok (⟨Transform.noop, acc, core⟩, []) := by
  induction es with
  | nil => rfl
  | cons e rest ih => simp [feedSeq, onMapFilter, runTransform, EmitSeq, ih]

/-- The `Fwd` filter reproduces any inbound sequence with at most one
`End` on every downstream collector, in order. -/
lemma feedseq_fwd (l : List (Nat × Nat)) (es : List Event) (ctx : Nat) (dc : Bool)
    (h : es.count EndEvent + (if dc then 1 else 0) ≤ 1) :
    feedSeq ⟨Transform.fwd, "", ⟨l, dc⟩⟩ ctx es
      = Except.ok (⟨Transform.fwd, "", ⟨l, dc || es.contains EndEvent⟩⟩,
          (es.map (fun e => l.map (fun p => (⟨p.2, ctx, e⟩ : LogEntry)))).flatten) := by
  induction es generalizing dc with
  | nil => simp [feedSeq]
  | cons e rest ih =>
    by_cases he : e = EndEvent
    · subst he
      have hc : rest.count EndEvent + 1 + (if dc then 1 else 0) ≤ 1 := by
        simpa [List.count_cons] using h
      have hdc : dc = false := by
        cases dc
        · rfl
        · exfalso
          simp at hc
      subst hdc
      have hcount : rest.count EndEvent + (if true then 1 else 0) ≤ 1 := by
        simpa using hc
      simp [feedSeq, onMapFilter_fwd, ih true hcount, List.contains_cons]
    · have hbeq : (EndEvent == e) = false := by
        simpa using fun hh => he hh.symm
      have hcount : rest.count EndEvent + (if dc then 1 else 0) ≤ 1 := by
        simpa [List.count_cons, hbeq, he] using h
      have hdec : decide (EndEvent = e) = false := decide_eq_false (fun hh => he hh.symm)
      simp [feedSeq, onMapFilter_fwd, he, ih dc hcount, List.contains_cons, hbeq, hdec]

/-- C4 (counterexample): feeding `Fwd` (with one downstream observer) the
sequence `[End, End]` does not reproduce the sequence downstream — the
second `End` is re-emitted on the filter's internal core, whose done
channel is already closed, and the run panics. -/
theorem fwd_double_end_panics :
    feedSeq (MapRegister (Map Transform.fwd) 0 0) 0 [EndEvent, EndEvent]
      = Except.error GoPanic.closeOfClosedChannel := rfl

/-- C4 (amended): `Fwd` composed after any Observable reproduces on every
downstream observer exactly the input sequence, in order, provided the
`End` sentinel occurs at most once in it (a second `End` panics, see the
counterexample); `Noop` produces no downstream events for every input
sequence without restriction. -/
theorem map_identity_laws :
    (∀ (l : List (Nat × Nat)) (es : List Event) (ctx : Nat), es.count EndEvent ≤ 1 →
        feedSeq ⟨Transform.fwd, "", ⟨l, false⟩⟩ ctx es
          = Except.ok (⟨Transform.fwd, "", ⟨l, es.contains EndEvent⟩⟩,
              (es.map (fun e => l.map (fun p => (⟨p.2, ctx, e⟩ : LogEntry)))).flatten))
    ∧ (∀ (acc : String) (core : Core Nat) (ctx : Nat) (es : List Event),
        feedSeq ⟨Transform.noop, acc, core⟩ ctx es
          = Except.ok (⟨Transform.noop, acc, core⟩, [])) := by
  constructor
  · intro l es ctx h
    simpa using feedseq_fwd l es ctx false (by simpa using h)
  · intro acc core ctx es
    exact feedseq_noop acc core ctx es

/-- C6: the `ExampleFilter` pipeline: a publisher emits "a", "b", "c"
into a core on which the accumulating-concatenation `Map` is registered;
the downstream observer registered on the `Map` receives, in order,
"a", "ab", "abc". -/
theorem concat_pipeline_abc :
    EmitSeq onMapFilter
        (Register (Pair MapFilter) 5 (MapRegister (Map Transform.concat) 1 1)) 7
        [Event.str "a", Event.str "b", Event.str "c"]
      = Except.ok (⟨[(5, ⟨Transform.concat, "abc", ⟨[(1, 1)], false⟩⟩)], false⟩,
          [⟨1, 7, Event.str "a"⟩, ⟨1, 7, Event.str "ab"⟩, ⟨1, 7, Event.str "abc"⟩]) := rfl

/-- Once registration 0 sits in the registry with its watcher goroutine
gone, every transition keeps it registered (fresh identities are positive,
and only a registration's own watcher can delete it). -/
lemma regstep_keeps_orphan (s s2 : RegSystem) (a : RegAction) (h : RegStep s a s2)
    (h0 : 0 ∈ s.registry) (h1 : 0 ∉ s.watchers) (h2 : 0 < s.nextId) :
    0 ∈ s2.registry ∧ 0 ∉ s2.watchers ∧ 0 < s2.nextId := by
  cases h with
  | register =>
    refine ⟨List.mem_append_left _ h0, ?_, Nat.succ_pos s.nextId⟩
    intro hmem
    rcases List.mem_append.mp hmem with hw | hw
    · exact h1 hw
    · simp at hw
      omega
  | cancel i => exact ⟨h0, h1, h2⟩
  | emitNonEnd e he => exact ⟨h0, h1, h2⟩
  | emitEnd hd => exact ⟨h0, h1, h2⟩
  | watcherDone i hw hd =>
    exact ⟨h0, fun hm => h1 (List.mem_of_mem_erase hm), h2⟩
  | watcherCancel i hw hc =>
    have hne : (0 : Nat) ≠ i := fun he => h1 (he ▸ hw)
    exact ⟨(List.mem_erase_of_ne hne).mpr h0,
      fun hm => h1 (List.mem_of_mem_erase hm), h2⟩

/-- `regstep_keeps_orphan`, transported along reachability. -/
lemma reach_keeps_orphan (s s2 : RegSystem) (h : Reach s s2)
    (h0 : 0 ∈ s.registry) (h1 : 0 ∉ s.watchers) (h2 : 0 < s.nextId) :
    0 ∈ s2.registry := by
  induction h with
  | refl s => exact h0
  | step s1 sa sb a hstep hreach ih =>
    obtain ⟨k0, k1, k2⟩ := regstep_keeps_orphan s1 sa a hstep h0 h1 h2
    exact ih k0 k1 k2

/-- C5 (counterexample): register (identity 0), emit `End`, let the
watcher wake on the done branch and exit, then cancel the registration's
context: the state `stuckState` is reachable, the context is cancelled
there, yet the registration is still in the registry and remains there in
every future — cancellation does not (even eventually) remove it, because
the watcher goroutine is gone. -/
theorem cancel_after_end_never_removes :
    Reach initRegSystem stuckState ∧ 0 ∈ stuckState.cancelled
      ∧ 0 ∈ stuckState.registry ∧ neverRemoved stuckState 0 := by
  refine ⟨?_, by simp [stuckState], by simp [stuckState], ?_⟩
  · refine Reach.step _ ⟨[0], [0], [], false, 1⟩ _ RegAction.register
      (RegStep.register initRegSystem) ?_
    refine Reach.step _ ⟨[0], [0], [], true, 1⟩ _ (RegAction.emitEvent EndEvent)
      (RegStep.emitEnd _ rfl) ?_
    refine Reach.step _ ⟨[0], [], [], true, 1⟩ _ (RegAction.watcherDone 0)
      ?_ ?_
    · have h := RegStep.watcherDone ⟨[0], [0], [], true, 1⟩ 0 (by simp) rfl
      simpa using h
    refine Reach.step _ stuckState _ (RegAction.cancel 0)
      (RegStep.cancel _ 0) (Reach.refl _)
  · intro s2 hr
    exact reach_keeps_orphan stuckState s2 hr (by simp [stuckState])
      (by simp [stuckState]) (by simp [stuckState])

/-- C5 (amended): a still-pending watcher whose context has been
cancelled can fire, and firing it removes exactly its own registration —
every other registration stays; conversely no transition ever removes a
registration whose watcher-with-cancelled-context did not fire (no
spurious removal).  Eventual removal is *not* guaranteed when the done
channel closes before the watcher observes the cancellation: the watcher
may exit via the done branch, after which the registration is never
removed (see the counterexample). -/
theorem cancel_removes_exactly_one :
    (∀ (s : RegSystem) (i : Nat), i ∈ s.watchers → i ∈ s.cancelled →
        RegStep s (RegAction.watcherCancel i)
          ⟨s.registry.erase i, s.watchers.erase i, s.cancelled, s.done, s.nextId⟩
        ∧ ∀ j ∈ s.registry, j ≠ i → j ∈ s.registry.erase i)
    ∧ (∀ (s s2 : RegSystem) (a : RegAction), RegStep s a s2 →
        ∀ j ∈ s.registry, j ∉ s2.registry →
        a = RegAction.watcherCancel j ∧ j ∈ s.cancelled) := by
  constructor
  · intro s i hw hc
    exact ⟨RegStep.watcherCancel s i hw hc,
      fun j hj hne => (List.mem_erase_of_ne hne).mpr hj⟩
  · intro s s2 a h j hj hnj
    cases h with
    | register => exact absurd (List.mem_append_left _ hj) hnj
    | cancel i => exact absurd hj hnj
    | emitNonEnd e he => exact absurd hj hnj
    | emitEnd hd => exact absurd hj hnj
    | watcherDone i hw hd => exact absurd hj hnj
    | watcherCancel i hw hc =>
      by_cases hji : j = i
      · subst hji
        exact ⟨rfl, hc⟩
      · exact absurd ((List.mem_erase_of_ne hji).mpr hj) hnj

/-- The per-argument dynamic-type loop of `Build` flags a mismatch exactly
when the argument-type list differs from the parameter-type list (given
equal lengths). -/
lemma zip_any_ne_iff : ∀ (args ps : List GoType), args.length = ps.length →
    (((args.zip ps).any fun p => decide (p.1 ≠ p.2)) = true ↔ args ≠ ps)
  | [], [], _ => by simp
  | [], _ :: _, h => by simp at h
  | _ :: _, [], h => by simp at h
  | a :: as, p :: ps, h => by
    have ih := zip_any_ne_iff as ps (by simpa using h)
    simp only [List.zip_cons_cons, List.any_cons, Bool.or_eq_true, decide_eq_true_eq, ih]
    by_cases hap : a = p
    · subst hap
      simp
    · simp [hap]

/-- `Build` on a valid builder (one result, of type `Filter`): the
mismatch error exactly when the argument types differ from the parameter
types, the built filter otherwise — never a panic. -/
lemma build_valid_cases (ps args : List GoType) :
    Build (NewFilterBuilder (GoValue.funcV ps [GoType.filterT])) args
      = if args = ps then Except.ok BuildResult.builtFilter
        else Except.ok BuildResult.mismatchErr := by
  by_cases hlen : args.length = ps.length
  · by_cases heq : args = ps
    · simp only [Build, NewFilterBuilder]
      rw [if_neg (fun hh : args.length ≠ ps.length => hh hlen),
        if_neg (fun hz => ((zip_any_ne_iff args ps hlen).mp hz) heq)]
      simp [heq]
    · simp only [Build, NewFilterBuilder]
      rw [if_neg (fun hh : args.length ≠ ps.length => hh hlen),
        if_pos ((zip_any_ne_iff args ps hlen).mpr heq), if_neg heq]
  · simp only [Build, NewFilterBuilder]
    rw [if_pos hlen, if_neg (fun heq => hlen (by rw [heq]))]

/-- C7: for a `FilterBuilder` wrapping a constructor function (a function
whose single result is of the `Filter` interface type), `Build` returns
the parameter-mismatch error exactly when the argument count differs from
the parameter count or some argument's dynamic type differs from the
corresponding parameter type; otherwise it calls the function and returns
the built `Filter` — in either case without letting a runtime fault
escape. -/
theorem build_mismatch_iff (ps args : List GoType) :
    (Build (NewFilterBuilder (GoValue.funcV ps [GoType.filterT])) args
        = Except.ok BuildResult.mismatchErr ↔
      args.length ≠ ps.length ∨
        ∃ n, ∃ h1 : n < args.length, ∃ h2 : n < ps.length,
          args.get ⟨n, h1⟩ ≠ ps.get ⟨n, h2⟩)
    ∧ (Build (NewFilterBuilder (GoValue.funcV ps [GoType.filterT])) args
          = Except.ok BuildResult.mismatchErr
        ∨ Build (NewFilterBuilder (GoValue.funcV ps [GoType.filterT])) args
          = Except.ok BuildResult.builtFilter) := by
  have hiff : args ≠ ps ↔
      (args.length ≠ ps.length ∨ ∃ n, ∃ h1 : n < args.length, ∃ h2 : n < ps.length,
        args.get ⟨n, h1⟩ ≠ ps.get ⟨n, h2⟩) := by
    rw [Ne, List.ext_get_iff, not_and_or]
    simp only [not_forall]
  constructor
  · rw [build_valid_cases ps args, ← hiff]
    by_cases heq : args = ps <;> simp [heq]
  · rw [build_valid_cases ps args]
    by_cases heq : args = ps <;> simp [heq]

/-!
## Concrete sanity instances

Closed evaluations of the model at small inputs, mirroring the runs of the
repository's example tests.
-/

/-- `Example`: one observer, two string events, then (after the modelled
removal) re-registration and `End` — here the post-`End` slice: a core with
one collector delivers `End` and then a further event. -/
theorem sanity_post_end_delivery :
    EmitSeq onCollector (⟨[(1, 1)], false⟩ : Core Nat) 0 [EndEvent, Event.str "bar"]
      = Except.ok (⟨[(1, 1)], true⟩,
          [⟨1, 0, EndEvent⟩, ⟨1, 0, Event.str "bar"⟩]) := rfl

/-- `Fwd` forwards a two-event sequence ending in a single `End`. -/
theorem sanity_fwd_forwards :
    feedSeq (MapRegister (Map Transform.fwd) 0 0) 3 [Event.str "x", EndEvent]
      = Except.ok (⟨Transform.fwd, "", ⟨[(0, 0)], true⟩⟩,
          [⟨0, 3, Event.str "x"⟩, ⟨0, 3, EndEvent⟩]) := rfl

/-- `Noop` swallows a sequence with two `End`s without fault. -/
theorem sanity_noop_swallows :
    feedSeq (MapRegister (Map Transform.noop) 0 0) 3 [EndEvent, EndEvent]
      = Except.ok (MapRegister (Map Transform.noop) 0 0, []) := rfl

/-- The modelled builder of `ExampleFilterBuilder` (`func(l int) Filter`)
is valid, builds on a matching `int` argument, and reports the mismatch
error on a wrong argument type and on a wrong argument count. -/
theorem sanity_build_cases :
    Valid (NewFilterBuilder (GoValue.funcV [GoType.intT] [GoType.filterT])) = true
    ∧ Build (NewFilterBuilder (GoValue.funcV [GoType.intT] [GoType.filterT])) [GoType.intT]
        = Except.ok BuildResult.builtFilter
    ∧ Build (NewFilterBuilder (GoValue.funcV [GoType.intT] [GoType.filterT])) [GoType.stringT]
        = Except.ok BuildResult.mismatchErr
    ∧ Build (NewFilterBuilder (GoValue.funcV [GoType.intT] [GoType.filterT])) []
        = Except.ok BuildResult.mismatchErr := by
  refine ⟨rfl, rfl, rfl, rfl⟩

/-- A pending watcher with a cancelled context can fire and removes
exactly its own registration: concrete two-registration instance. -/
theorem sanity_watcher_cancel_step :
    RegStep ⟨[0, 1], [0, 1], [0], false, 2⟩ (RegAction.watcherCancel 0)
      ⟨[1], [1], [0], false, 2⟩ := by
  have h := RegStep.watcherCancel ⟨[0, 1], [0, 1], [0], false, 2⟩ 0 (by simp) (by simp)
  simpa using h
